import Mathlib

/-!
Verification of the forging-spec-manager front end (src/app/page.jsx and the
variants in src/unnamed/part_000) against its natural-language specification.

The JavaScript is embedded shallowly:
* JSON values (the payloads of `JSON.parse` and `response.json()`) become the
  inductive type `Json`; JavaScript truthiness, property access and optional
  chaining are modelled by `jsTruthy`, `jsProp`, `jsIndex` and `jsOptChain`.
* The queue items and catalog records become structures mirroring the object
  literals in the source; status strings become the closed enumeration
  `Status`.
* Asynchronous functions that can reject become `Except String` values, the
  error string being the JavaScript error's `.message`.
* Platform primitives (the transport behind `fetch`, `Math.random`'s jitter,
  `crypto.randomUUID`, the clock, and `JSON.parse`) are parameters of the
  embedded functions, universally quantified in the theorems.
-/

/-- A JSON value, as produced by `response.json()` or `JSON.parse`.
`obj` keeps fields in order; lookup takes the first binding, which agrees
with JavaScript objects (no duplicate keys survive `JSON.parse`). -/
inductive Json where
  | null
  | bool (b : Bool)
  | num (n : Int)
  | str (s : String)
  | arr (elems : List Json)
  | obj (fields : List (String × Json))

/-- JavaScript property access `v.key` on a non-nullish value: objects look the
key up, every other value yields `undefined` (`none`). -/
def jsProp (v : Json) (key : String) : Option Json :=
  match v with
  | .obj fields => (fields.find? (fun p => p.1 == key)).map (fun p => p.2)
  | _ => none

/-- JavaScript indexing `v[i]` on a non-nullish value: arrays index positionally,
strings yield the one-character string, objects look up the numeric key as a
string, everything else yields `undefined`. -/
def jsIndex (v : Json) (i : Nat) : Option Json :=
  match v with
  | .arr elems => elems.get? i
  | .str s => (s.data.get? i).map (fun c => .str (String.mk [c]))
  | .obj fields => (fields.find? (fun p => p.1 == toString i)).map (fun p => p.2)
  | _ => none

/-- One step of a JavaScript optional chain `v?.…`: `undefined` and `null`
short-circuit to `undefined`, anything else is fed to the accessor. -/
def jsOptChain (v : Option Json) (f : Json → Option Json) : Option Json :=
  match v with
  | none => none
  | some .null => none
  | some j => f j

/-- JavaScript truthiness of a possibly-`undefined` value: `undefined`, `null`,
`false`, `0` and `""` are falsy, everything else is truthy. -/
def jsTruthy (v : Option Json) : Bool :=
  match v with
  | none => false
  | some .null => false
  | some (.bool b) => b
  | some (.num n) => n != 0
  | some (.str s) => s != ""
  | some (.arr _) => true
  | some (.obj _) => true

/-- JavaScript `v || dflt` for a possibly-`undefined` value: the value itself
when truthy, otherwise the default. -/
def jsOr (v : Option Json) (dflt : Json) : Json :=
  match v with
  | some j => if jsTruthy (some j) then j else dflt
  | none => dflt

/-- `Array.isArray(v) ? v : []` applied to a possibly-`undefined` value. -/
def jsArrayOrEmpty (v : Option Json) : Json :=
  match v with
  | some (.arr elems) => .arr elems
  | _ => .arr []

/-- JavaScript `s.includes(pat)`: substring containment. -/
def jsIncludes (s pat : String) : Bool :=
  decide (pat.data <:+: s.data)

/-- The queue-item status strings `'pending' | 'analyzing' | 'analyzed' | 'error'`
from the source, as a closed enumeration. -/
inductive Status where
  | pending
  | analyzing
  | analyzed
  | error
deriving DecidableEq

/-- An upload-queue entry, mirroring `initialItem` in `SpecUploadModal` plus the
fields filled in by `handleFileSelect`.  `summary` and `keywords` are `Json`
because they are assigned from the AI response, which JavaScript does not
constrain to be a string / an array of strings.  The raw `file` handle is
omitted: none of the embedded operations reads it. -/
structure QueueItem where
  id : String
  fileName : String
  filePath : String
  fileType : String
  mockContent : String
  status : Status
  summary : Json
  keywords : Json
  error : String

/-- The string-valued queue-item fields that the UI's `onChange` handler can
name in the computed-key update `{...item, [field]: value}`; every call site in
the source passes `'mockContent'`. -/
inductive EditField where
  | mockContent
  | fileName
  | filePath
  | fileType
deriving DecidableEq

/-- The computed-key part `{...item, [field]: value}` of `handleInputChange`. -/
def QueueItem.setField (item : QueueItem) : EditField → String → QueueItem
  | .mockContent, v => { item with mockContent := v }
  | .fileName, v => { item with fileName := v }
  | .filePath, v => { item with filePath := v }
  | .fileType, v => { item with fileType := v }

/-- The two fields of a fetch `Response` that `fetchWithRetry` reads. -/
structure Response where
  ok : Bool
  status : Nat
deriving DecidableEq

/-- What the transport does on one attempt: either `fetch` rejects with an
error whose message is `msg`, or it resolves with a response. -/
inductive TransportStep where
  | throws (msg : String)
  | returns (resp : Response)
deriving DecidableEq

/-- An error escaping `fetchWithRetry`: the `HTTP error! status: …` error the
function itself constructs, or a rethrown transport error. -/
inductive FetchError where
  | http (status : Nat)
  | transport (msg : String)
deriving DecidableEq

/-- How a call to `fetchWithRetry` settles: resolves with a response, rejects
with an error, or falls off the loop and resolves with `undefined` (which can
only happen when `retries = 0`). -/
inductive FetchOutcome where
  | resolved (resp : Response)
  | rejected (e : FetchError)
  | undef
deriving DecidableEq

/-- A complete run of `fetchWithRetry`: its outcome, the backoff sleeps it
performed (in milliseconds, in order), and how many transport attempts it made. -/
structure FetchRun where
  outcome : FetchOutcome
  delays : List Nat
  attempts : Nat
deriving DecidableEq

/-- The loop body of `fetchWithRetry` (src/app/page.jsx lines 71-86).  `f i` is
what the transport does on attempt `i`; `jitter i` is the value of
`Math.random() * 1000` drawn before the sleep that follows attempt `i`; `fuel`
is `retries - i`, making the loop structurally recursive.  A non-`ok`
status that is not a retryable 429 throws `HTTP error! status: …`, but that
throw happens inside the `try`, so the surrounding `catch` swallows it and
the loop continues unless this is the final attempt. -/
def fetchWithRetryGo (f : Nat → TransportStep) (jitter : Nat → Nat) (retries : Nat) :
    Nat → Nat → FetchRun
  | 0, _ => ⟨.undef, [], 0⟩
  | fuel + 1, i =>
    match f i with
    | .returns resp =>
      if resp.ok then ⟨.resolved resp, [], 1⟩
      else if resp.status = 429 ∧ i < retries - 1 then
        let rest := fetchWithRetryGo f jitter retries fuel (i + 1)
        ⟨rest.outcome, (2 ^ i * 1000 + jitter i) :: rest.delays, rest.attempts + 1⟩
      else if i = retries - 1 then ⟨.rejected (.http resp.status), [], 1⟩
      else
        let rest := fetchWithRetryGo f jitter retries fuel (i + 1)
        ⟨rest.outcome, rest.delays, rest.attempts + 1⟩
    | .throws msg =>
      if i = retries - 1 then ⟨.rejected (.transport msg), [], 1⟩
      else
        let rest := fetchWithRetryGo f jitter retries fuel (i + 1)
        ⟨rest.outcome, rest.delays, rest.attempts + 1⟩

/-- `fetchWithRetry(url, options, retries = 3)`: run the retry loop from
attempt 0. -/
def fetchWithRetry (f : Nat → TransportStep) (jitter : Nat → Nat) (retries : Nat) : FetchRun :=
  fetchWithRetryGo f jitter retries retries 0

/-- The fallback summary literal `'요약 생성 실패'` ("summary generation failed"). -/
def FALLBACK_SUMMARY : String := "요약 생성 실패"

/-- The message of the error thrown when no API key is configured
(src/app/page.jsx line 212). -/
def MSG_KEY_MISSING : String :=
  "Gemini API Key가 설정되지 않았습니다. .env.local 파일을 확인해주세요."

/-- The message of the error thrown when the response payload has no content
(src/app/page.jsx line 246). -/
def MSG_CONTENT_MISSING : String := "API 응답에서 내용이 누락되었습니다."

/-- The uniform wrapping prepended to every error caught by the `catch` block
of `generateSpecMetadata` (src/app/page.jsx line 257). -/
def ANALYSIS_FAIL_WRAP : String := "AI 분석 실패: "

/-- The `TypeError` message when `result.candidates` is read off `null`
(the body of the HTTP response was the JSON text `null`). -/
def MSG_NULL_CANDIDATES : String := "Cannot read properties of null (reading 'candidates')"

/-- The `TypeError` message when `parsedData.summary` is read off `null`
(the extracted text was the JSON text `null`). -/
def MSG_NULL_SUMMARY : String := "Cannot read properties of null (reading 'summary')"

/-- Whether a JSON value is `null` (used to model the `TypeError` of an
unguarded property read off `null`). -/
def Json.isNull : Json → Bool
  | .null => true
  | _ => false

/-- The expression `result.candidates?.[0]?.content?.parts?.[0]?.text` from
`generateSpecMetadata`.  The first access `result.candidates` is unguarded and
throws a `TypeError` when `result` is `null`; every later step is behind `?.`
and short-circuits to `undefined`. -/
def extractJsonText (result : Json) : Except String (Option Json) :=
  match result with
  | .null => .error MSG_NULL_CANDIDATES
  | r =>
    .ok (jsOptChain (jsOptChain (jsOptChain (jsOptChain (jsOptChain
      (jsProp r "candidates")
      (fun c => jsIndex c 0))
      (fun x => jsProp x "content"))
      (fun x => jsProp x "parts"))
      (fun x => jsIndex x 0))
      (fun x => jsProp x "text"))

/-- The value `generateSpecMetadata` resolves with:
`{ summary: parsedData.summary || '요약 생성 실패',
   keywords: Array.isArray(parsedData.keywords) ? parsedData.keywords : [] }`. -/
structure AnalyzeResult where
  summary : Json
  keywords : Json

/-- The `try` block of `generateSpecMetadata` (src/app/page.jsx lines 236-253).
`net` is the combined outcome of `await fetchWithRetry(…)` followed by
`await response.json()`: either a rejection with an error message or the parsed
response body.  `jsonParse` is the platform's `JSON.parse` applied to the
JavaScript string coercion of its argument; it either throws with a message or
returns a JSON value.  Reading `parsedData.summary` off a `null` parse result
throws a `TypeError`, like the unguarded access in the source. -/
def generateSpecMetadataTry (net : Except String Json)
    (jsonParse : Json → Except String Json) : Except String AnalyzeResult :=
  match net with
  | .error msg => .error msg
  | .ok result =>
    match extractJsonText result with
    | .error msg => .error msg
    | .ok jsonText =>
      match jsonText with
      | none => .error MSG_CONTENT_MISSING
      | some jt =>
        if jsTruthy (some jt) then
          match jsonParse jt with
          | .error msg => .error msg
          | .ok parsedData =>
            if parsedData.isNull then .error MSG_NULL_SUMMARY
            else
              .ok { summary := jsOr (jsProp parsedData "summary") (.str FALLBACK_SUMMARY),
                    keywords := jsArrayOrEmpty (jsProp parsedData "keywords") }
        else .error MSG_CONTENT_MISSING

/-- `generateSpecMetadata(fileName, fileContent)` (src/app/page.jsx
lines 210-259).  The missing-credential check `!apiKey && !process.env.…`
(both conjuncts read the same environment variable) throws before the `try`
block, so that error is not wrapped; every error raised inside the `try` block
is re-thrown as `'AI 분석 실패: ' + e.message`. -/
def generateSpecMetadata (apiKey : String) (net : Except String Json)
    (jsonParse : Json → Except String Json) : Except String AnalyzeResult :=
  if apiKey = "" then .error MSG_KEY_MISSING
  else
    match generateSpecMetadataTry net jsonParse with
    | .ok r => .ok r
    | .error msg => .error (ANALYSIS_FAIL_WRAP ++ msg)

/-- A file handed to `handleFileSelect` by the file-input change event: its
`name` and its `webkitRelativePath` (empty unless a folder was selected). -/
structure SelectedFile where
  name : String
  webkitRelativePath : String
deriving DecidableEq

/-- `const parts = file.name.split('.'); parts.length > 1 ? parts.pop().toUpperCase() : 'N/A'`
from `handleFileSelect`. -/
def fileTypeOfName (name : String) : String :=
  let parts := name.splitOn "."
  if parts.length > 1 then (parts.getLastD "").toUpper else "N/A"

/-- The `filePath` computation of `handleFileSelect`: when `webkitRelativePath`
is truthy (non-empty), everything before the last `/`-separated component,
rejoined with `/`; otherwise the empty string. -/
def filePathOfRelPath (wrp : String) : String :=
  if wrp != "" then String.intercalate "/" ((wrp.splitOn "/").dropLast) else ""

/-- The object literal `{...initialItem, id: crypto.randomUUID(), fileName: …,
filePath: …, fileType: …}` built for each selected file. -/
def mkQueueItem (id : String) (f : SelectedFile) : QueueItem :=
  { id := id
    fileName := f.name
    filePath := filePathOfRelPath f.webkitRelativePath
    fileType := fileTypeOfName f.name
    mockContent := ""
    status := .pending
    summary := .str ""
    keywords := .arr []
    error := "" }

/-- The de-duplication key `item.filePath + item.fileName` used by
`handleFileSelect`'s uniqueness check. -/
def queueKey (item : QueueItem) : String := item.filePath ++ item.fileName

/-- The de-duplication key a selected file would get, before it is turned into
a queue item. -/
def selKey (f : SelectedFile) : String := filePathOfRelPath f.webkitRelativePath ++ f.name

/-- `handleFileSelect` (src/app/page.jsx lines 551-588).  `ids n` stands for the
`crypto.randomUUID()` drawn for the `n`-th file of the batch.  New items are
filtered against the keys already in the queue — but not against each other —
and appended. -/
def handleFileSelect (queue : List QueueItem) (files : List SelectedFile)
    (ids : Nat → String) : List QueueItem :=
  if files.isEmpty then queue
  else
    let newSpecs := files.enum.map (fun p => mkQueueItem (ids p.1) p.2)
    let currentIdentifiers := queue.map queueKey
    let uniqueNewSpecs := newSpecs.filter (fun s => !(currentIdentifiers.contains (queueKey s)))
    queue ++ uniqueNewSpecs

/-- `handleRemoveItem(id)`: drop the entry with the given id. -/
def handleRemoveItem (queue : List QueueItem) (id : String) : List QueueItem :=
  queue.filter (fun item => item.id != id)

/-- `handleInputChange(id, field, value)` (src/app/page.jsx lines 594-610): on
the matching entry, set the named field and unconditionally reset
`status: 'pending', summary: '', keywords: [], error: ''`; leave every other
entry alone. -/
def handleInputChange (queue : List QueueItem) (id : String) (field : EditField)
    (value : String) : List QueueItem :=
  queue.map fun item =>
    if item.id = id then
      { item.setField field value with
        status := .pending
        summary := .str ""
        keywords := .arr []
        error := "" }
    else item

/-- The first state update of `analyzeAndSetQueue`: mark the matching entry
`'analyzing'` and clear its error. -/
def markAnalyzing (queue : List QueueItem) (id : String) : List QueueItem :=
  queue.map fun q =>
    if q.id = id then { q with status := .analyzing, error := "" } else q

/-- The success update of `analyzeAndSetQueue`: store the summary and keywords
and mark the matching entry `'analyzed'`. -/
def markAnalyzed (queue : List QueueItem) (id : String) (summary keywords : Json) :
    List QueueItem :=
  queue.map fun q =>
    if q.id = id then
      { q with summary := summary, keywords := keywords, status := .analyzed }
    else q

/-- The failure update of `analyzeAndSetQueue`: mark the matching entry
`'error'` and record the message. -/
def markError (queue : List QueueItem) (id : String) (msg : String) : List QueueItem :=
  queue.map fun q =>
    if q.id = id then { q with status := .error, error := msg } else q

/-- The selection made by `handleAnalyzeAll` (src/app/page.jsx line 662):
`item.fileName && (item.status === 'pending' || item.status === 'error')`. -/
def analyzeAllSelect (queue : List QueueItem) : List QueueItem :=
  queue.filter fun item =>
    item.fileName != "" && (item.status == .pending || item.status == .error)

/-- How one launched analysis settles: `analyzeAndSetQueue` either reaches the
success update with the destructured `summary`/`keywords`, or its `catch`
records the error message.  It never rejects. -/
inductive AnalyzeOutcome where
  | success (summary keywords : Json)
  | failure (msg : String)

/-- The queue update a settling analysis performs. -/
def applyOutcome (queue : List QueueItem) (id : String) : AnalyzeOutcome → List QueueItem
  | .success summary keywords => markAnalyzed queue id summary keywords
  | .failure msg => markError queue id msg

/-- A snapshot of the modal during a `handleAnalyzeAll` batch: the queue, the
`isAnalyzing` lock, the ids of launched analyses whose promises have not yet
settled, and whether the `await Promise.all` has resumed and reset the lock. -/
structure BatchState where
  queue : List QueueItem
  isAnalyzing : Bool
  remaining : List String
  returned : Bool

/-- The state right after `handleAnalyzeAll` has set the lock and launched all
selected analyses: calling each `async analyzeAndSetQueue` runs it
synchronously up to its first `await`, so every selected item is already
marked `'analyzing'` (in selection order) and every selected id is pending. -/
def batchInit (q : List QueueItem) : BatchState :=
  { queue := (analyzeAllSelect q).foldl (fun acc item => markAnalyzing acc item.id) q
    isAnalyzing := true
    remaining := (analyzeAllSelect q).map (fun item => item.id)
    returned := false }

/-- Event-loop steps during a batch: a pending analysis settles (with success
or failure, independently of the others), or — only once every launched
promise has settled, by the semantics of `Promise.all` — the batch function
resumes and clears the lock. -/
inductive BatchStep : BatchState → BatchState → Prop where
  | complete (s : BatchState) (id : String) (outcome : AnalyzeOutcome)
      (h : id ∈ s.remaining) :
      BatchStep s { s with
        queue := applyOutcome s.queue id outcome
        remaining := s.remaining.erase id }
  | finish (s : BatchState) (h : s.remaining = []) (h2 : s.returned = false) :
      BatchStep s { s with isAnalyzing := false, returned := true }

/-- States reachable while a batch launched from queue `q0` runs. -/
inductive BatchReachable (q0 : List QueueItem) : BatchState → Prop where
  | init : BatchReachable q0 (batchInit q0)
  | step {s t : BatchState} : BatchReachable q0 s → BatchStep s t → BatchReachable q0 t

/-- What `handleAnalyzeAll` does up to its first suspension: with no qualifying
item it alerts and returns without touching the lock or the queue; otherwise
it starts a batch. -/
inductive AnalyzeAllAction where
  | notice
  | run (s : BatchState)

/-- `handleAnalyzeAll()` (src/app/page.jsx lines 661-680). -/
def handleAnalyzeAll (q : List QueueItem) : AnalyzeAllAction :=
  if (analyzeAllSelect q).isEmpty then .notice else .run (batchInit q)

/-- A persisted catalog record, mirroring the object literal built by
`handleSaveAnalyzedSpecs` in the local-storage revision (src/unnamed/part_000
lines 145-155).  `summary` and `keywords` are copied from the queue item, so
they are `Json` like there. -/
structure SpecRecord where
  id : String
  fileName : String
  fileType : String
  downloadLink : String
  summary : Json
  keywords : Json
  createdAt : String

/-- The record built from one analyzed queue item at commit time.  `now` is
`new Date().toISOString()` (the commit runs synchronously, so one clock reading
serves the whole batch) and `link` is the `#mock-link-…` random string. -/
def toSpecRecord (now : String) (link : String) (spec : QueueItem) : SpecRecord :=
  { id := spec.id
    fileName := spec.fileName
    fileType := spec.fileType
    downloadLink := link
    summary := spec.summary
    keywords := spec.keywords
    createdAt := now }

/-- `handleSaveAnalyzedSpecs(specsToSave)` in the local-storage revision
(src/unnamed/part_000 lines 141-174): keep only the `'analyzed'` items, build
their records (`links n` is the random link of the `n`-th kept item), prepend
them to the previous list, and persist that same whole list.  The result is
`(in-memory list, persisted list)`. -/
def handleSaveAnalyzedSpecs (now : String) (links : Nat → String)
    (specsToSave : List QueueItem) (prevSpecs : List SpecRecord) :
    List SpecRecord × List SpecRecord :=
  let specsToSaveData :=
    ((specsToSave.filter (fun spec => spec.status == .analyzed)).enum).map
      (fun p => toSpecRecord now (links p.1) p.2)
  let newSpecs := specsToSaveData ++ prevSpecs
  (newSpecs, newSpecs)

/-- Modelled from the spec: the repository revision whose catalog save also
writes each item's raw blob to a local binary object store is not under
`src/`; spec §4.5 says `save(analyzedItems)` "best-effort persists the raw
blob (if present) to the binary store, then unconditionally appends a
SpecRecord … to the front of the in-memory list, then persists the whole list
to metadata storage".  `blobOk` gives each item's blob-save outcome; the
metadata commit is the unmodified `handleSaveAnalyzedSpecs`.  The result pairs
the metadata commit with the attempted blob saves and their outcomes. -/
def saveWithBlobStore (now : String) (links : Nat → String)
    (blobOk : QueueItem → Bool) (specsToSave : List QueueItem)
    (prevSpecs : List SpecRecord) :
    (List SpecRecord × List SpecRecord) × List (QueueItem × Bool) :=
  let blobResults :=
    (specsToSave.filter (fun spec => spec.status == .analyzed)).map
      (fun spec => (spec, blobOk spec))
  (handleSaveAnalyzedSpecs now links specsToSave prevSpecs, blobResults)

/-- What `handleSave` does: with no analyzed item it alerts and changes
nothing; otherwise it commits the analyzed items. -/
inductive SaveAction where
  | notice
  | saved (result : List SpecRecord × List SpecRecord)

/-- `handleSave(e)` (src/unnamed/part_000 lines 856-867): filter the queue for
`'analyzed'` items, alert if there are none, otherwise hand them to
`handleSaveAnalyzedSpecs`. -/
def handleSave (now : String) (links : Nat → String) (uploadQueue : List QueueItem)
    (specs : List SpecRecord) : SaveAction :=
  let specsToSave := uploadQueue.filter (fun item => item.status == .analyzed)
  if specsToSave.isEmpty then .notice
  else .saved (handleSaveAnalyzedSpecs now links specsToSave specs)

/-- The `spec.keywords?.some(keyword => keyword.toLowerCase().includes(l))`
clause of the catalog filter.  A nullish `keywords` short-circuits to
`undefined` (falsy); on a non-array, or on a non-string element, JavaScript
would throw a `TypeError` — those cases are modelled as no match and the
filter theorem restricts itself to string-shaped records. -/
def keywordSome (lowerCaseSearch : String) (v : Json) : Bool :=
  match v with
  | .arr ks => ks.any fun k =>
      match k with
      | .str s => jsIncludes s.toLower lowerCaseSearch
      | _ => false
  | _ => false

/-- The `spec.summary?.toLowerCase().includes(l)` clause, under the same
string-shaped reading as `keywordSome`. -/
def summarySome (lowerCaseSearch : String) (v : Json) : Bool :=
  match v with
  | .str s => jsIncludes s.toLower lowerCaseSearch
  | _ => false

/-- `filteredSpecs` (src/app/page.jsx lines 320-329): a falsy (empty) search
term returns the list unchanged; otherwise keep the records whose lowercased
file name, some lowercased keyword, or lowercased summary contains the
lowercased term. -/
def filteredSpecs (specs : List SpecRecord) (searchTerm : String) : List SpecRecord :=
  if searchTerm = "" then specs
  else
    let lowerCaseSearch := searchTerm.toLower
    specs.filter fun spec =>
      jsIncludes spec.fileName.toLower lowerCaseSearch ||
      keywordSome lowerCaseSearch spec.keywords ||
      summarySome lowerCaseSearch spec.summary

/-- A catalog record of the shape the UI produces and the spec describes: a
string summary and a list of string keywords. -/
def wellFormedRecord (r : SpecRecord) : Prop :=
  (∃ s, r.summary = Json.str s) ∧ (∃ ks : List String, r.keywords = Json.arr (ks.map .str))

/-- The spec's description of a filter match (§4.5 `filterAndSort`):
the lowercased search term is a substring of the file name, of the summary, or
of at least one keyword, all compared lowercased. -/
def specSaysMatch (term : String) (spec : SpecRecord) : Prop :=
  term.toLower.data <:+: spec.fileName.toLower.data ∨
  (∃ ks k, spec.keywords = Json.arr ks ∧ Json.str k ∈ ks ∧
    term.toLower.data <:+: k.toLower.data) ∨
  (∃ s, spec.summary = Json.str s ∧ term.toLower.data <:+: s.toLower.data)

/-- Upload-queue states reachable through any sequence of file selections and
removals, with no constraint on the selected batches. -/
inductive ReachableQueue : List QueueItem → Prop where
  | empty : ReachableQueue []
  | select (q : List QueueItem) (files : List SelectedFile) (ids : Nat → String) :
      ReachableQueue q → ReachableQueue (handleFileSelect q files ids)
  | remove (q : List QueueItem) (id : String) :
      ReachableQueue q → ReachableQueue (handleRemoveItem q id)

/-- Upload-queue states reachable when, in addition, every single selection
event's batch carries pairwise-distinct de-duplication keys (which is what a
browser file dialog delivers). -/
inductive ReachableQueueD : List QueueItem → Prop where
  | empty : ReachableQueueD []
  | select (q : List QueueItem) (files : List SelectedFile) (ids : Nat → String)
      (hnd : (files.map selKey).Nodup) :
      ReachableQueueD q → ReachableQueueD (handleFileSelect q files ids)
  | remove (q : List QueueItem) (id : String) :
      ReachableQueueD q → ReachableQueueD (handleRemoveItem q id)

/-! Concrete environments and data used by the counterexamples and witnesses. -/

/-- A transport that answers every attempt with an HTTP 500 failure. -/
def const500 : Nat → TransportStep := fun _ => .returns ⟨false, 500⟩

/-- A jitter draw of 0ms on every sleep. -/
def zeroJitter : Nat → Nat := fun _ => 0

/-- A transport that answers 429 on attempts 0 and 1 and succeeds on attempt 2. -/
def fetch429twiceThenOk : Nat → TransportStep := fun i =>
  if i < 2 then .returns ⟨false, 429⟩ else .returns ⟨true, 200⟩

/-- A transport that answers 429 on every attempt. -/
def fetch429always : Nat → TransportStep := fun _ => .returns ⟨false, 429⟩

/-- A well-formed AI response body whose `candidates[0].content.parts[0].text`
is the given string. -/
def candidatesWrap (text : String) : Json :=
  let part : Json := .obj [("text", .str text)]
  let content : Json := .obj [("parts", .arr [part])]
  let candidate : Json := .obj [("content", content)]
  .obj [("candidates", .arr [candidate])]

/-- A network outcome delivering the JSON text `{"summary": true, "keywords": []}`
as the extracted content — legitimate JSON whose `summary` is the boolean `true`. -/
def c4Net : Except String Json :=
  .ok (candidatesWrap "\x7b \"summary\": true, \"keywords\": [] \x7d")

/-- `JSON.parse` on the text carried by `c4Net`. -/
def c4Parse : Json → Except String Json := fun _ =>
  .ok (.obj [("summary", .bool true), ("keywords", .arr [])])

/-- An analyzed queue item. -/
def c3Item : QueueItem :=
  { id := "a", fileName := "spec1.pdf", filePath := "", fileType := "PDF"
    mockContent := "old", status := .analyzed, summary := .str "Forging tolerance spec"
    keywords := .arr [.str "forging", .str "tolerance"], error := "" }

/-- A pending queue item with a non-empty file name. -/
def c7Pending : QueueItem := { c3Item with id := "p1", status := .pending }

/-- A selected file with no folder path. -/
def dupFile : SelectedFile := ⟨"a.pdf", ""⟩

/-- A second, distinct selected file. -/
def singleFile : SelectedFile := ⟨"b.pdf", ""⟩

/-- The queue produced by selecting the same file twice in one batch on an
empty queue. -/
def dupQueue : List QueueItem :=
  handleFileSelect [] [dupFile, dupFile] (fun n => toString n)

/-- The batch state after the single launched analysis of `[c7Pending]` has
settled (with a failure) and `Promise.all` has resumed and cleared the lock. -/
def c8sFinal : BatchState :=
  { queue := applyOutcome (batchInit [c7Pending]).queue "p1" (.failure "boom")
    isAnalyzing := false
    remaining := []
    returned := true }

/-- A catalog record whose summary contains "tolerance" (in mixed case). -/
def c9Rec : SpecRecord :=
  { id := "r1", fileName := "Spec_A.pdf", fileType := "PDF", downloadLink := "#"
    summary := .str "Forging TOLERANCE spec", keywords := .arr [.str "forging"]
    createdAt := "2026-01-01T00:00:00.000Z" }

/-- A commit-time link generator for the witnesses. -/
def c7Links : Nat → String := fun n => "#mock-link-" ++ toString n

/-! Helper lemmas about the retry loop. -/

/-- One unfolding step of the retry loop when the transport returns a response. -/
theorem fetchWithRetryGo_returns (f : Nat → TransportStep) (jitter : Nat → Nat)
    (retries fuel i : Nat) (resp : Response) (h : f i = .returns resp) :
    fetchWithRetryGo f jitter retries (fuel + 1) i =
      if resp.ok then ⟨.resolved resp, [], 1⟩
      else if resp.status = 429 ∧ i < retries - 1 then
        ⟨(fetchWithRetryGo f jitter retries fuel (i + 1)).outcome,
         (2 ^ i * 1000 + jitter i) :: (fetchWithRetryGo f jitter retries fuel (i + 1)).delays,
         (fetchWithRetryGo f jitter retries fuel (i + 1)).attempts + 1⟩
      else if i = retries - 1 then ⟨.rejected (.http resp.status), [], 1⟩
      else
        ⟨(fetchWithRetryGo f jitter retries fuel (i + 1)).outcome,
         (fetchWithRetryGo f jitter retries fuel (i + 1)).delays,
         (fetchWithRetryGo f jitter retries fuel (i + 1)).attempts + 1⟩ := by
  conv_lhs => rw [fetchWithRetryGo, h]

/-- If every attempt from `i` to the last returns a failing non-429 status, the
loop swallows each thrown `HTTP error! status:` until the final attempt, whose
error it rethrows; no sleep happens and every remaining attempt is made. -/
theorem fetchWithRetryGo_nonretryable (f : Nat → TransportStep) (jitter : Nat → Nat)
    (retries : Nat) (statuses : Nat → Nat) :
    ∀ fuel i, i + (fuel + 1) = retries →
    (∀ k, i ≤ k → k < retries → f k = .returns ⟨false, statuses k⟩) →
    (∀ k, i ≤ k → k < retries → statuses k ≠ 429) →
    fetchWithRetryGo f jitter retries (fuel + 1) i =
      ⟨.rejected (.http (statuses (retries - 1))), [], fuel + 1⟩ := by
  intro fuel
  induction fuel with
  | zero =>
    intro i hi hf hs
    have hilt : i < retries := by omega
    have hlast : i = retries - 1 := by omega
    rw [fetchWithRetryGo_returns f jitter retries 0 i _ (hf i le_rfl hilt)]
    rw [if_neg (by simp), if_neg (by simp [hs i le_rfl hilt]), if_pos hlast, hlast]
  | succ m ih =>
    intro i hi hf hs
    have hilt : i < retries := by omega
    have hne : i ≠ retries - 1 := by omega
    rw [fetchWithRetryGo_returns f jitter retries (m + 1) i _ (hf i le_rfl hilt)]
    rw [if_neg (by simp), if_neg (by simp [hs i le_rfl hilt]), if_neg hne]
    rw [ih (i + 1) (by omega) (fun k hk1 hk2 => hf k (by omega) hk2)
      (fun k hk1 hk2 => hs k (by omega) hk2)]

/-- A run of 429 responses from attempt `i` up to a succeeding attempt `k`:
each 429 sleeps its backoff `2^attempt * 1000 + jitter` and retries, and the
loop resolves with the succeeding response after `k - i + 1` attempts. -/
theorem fetchWithRetryGo_429_then_ok (f : Nat → TransportStep) (jitter : Nat → Nat)
    (retries : Nat) (resp : Response) (hok : resp.ok = true) :
    ∀ fuel i k, i + fuel = retries → i ≤ k → k < retries →
    (∀ j, i ≤ j → j < k → f j = .returns ⟨false, 429⟩) →
    f k = .returns resp →
    fetchWithRetryGo f jitter retries fuel i =
      ⟨.resolved resp,
       (List.range (k - i)).map (fun d => 2 ^ (i + d) * 1000 + jitter (i + d)),
       (k - i) + 1⟩ := by
  intro fuel
  induction fuel with
  | zero =>
    intro i k hi hik hk h429 hfk
    omega
  | succ m ih =>
    intro i k hi hik hk h429 hfk
    rcases Nat.eq_or_lt_of_le hik with heq | hlt
    · subst heq
      rw [fetchWithRetryGo_returns f jitter retries m i _ hfk, if_pos hok]
      simp
    · rw [fetchWithRetryGo_returns f jitter retries m i _ (h429 i le_rfl hlt)]
      rw [if_neg (by simp), if_pos (by exact ⟨rfl, by omega⟩)]
      rw [ih (i + 1) k (by omega) (by omega) hk
        (fun j hj1 hj2 => h429 j (by omega) hj2) hfk]
      have hki : k - i = (k - (i + 1)) + 1 := by omega
      have hdel : (List.range (k - (i + 1))).map
          (fun d => 2 ^ ((i + 1) + d) * 1000 + jitter ((i + 1) + d)) =
          (List.range (k - (i + 1))).map
            ((fun d => 2 ^ (i + d) * 1000 + jitter (i + d)) ∘ Nat.succ) := by
        refine List.map_congr_left ?_
        intro d _
        simp only [Function.comp_apply]
        rw [show (i + 1) + d = i + Nat.succ d by omega]
      rw [hki, List.range_succ_eq_map, List.map_cons, List.map_map, ← hdel]
      simp

/-- A run of 429 responses on every attempt from `i` to the last: each non-final
429 sleeps and retries, the final one rethrows `HTTP error! status: 429`. -/
theorem fetchWithRetryGo_429_exhaust (f : Nat → TransportStep) (jitter : Nat → Nat)
    (retries : Nat) :
    ∀ fuel i, i + (fuel + 1) = retries →
    (∀ j, i ≤ j → j < retries → f j = .returns ⟨false, 429⟩) →
    fetchWithRetryGo f jitter retries (fuel + 1) i =
      ⟨.rejected (.http 429),
       (List.range fuel).map (fun d => 2 ^ (i + d) * 1000 + jitter (i + d)),
       fuel + 1⟩ := by
  intro fuel
  induction fuel with
  | zero =>
    intro i hi h429
    have hilt : i < retries := by omega
    have hlast : i = retries - 1 := by omega
    rw [fetchWithRetryGo_returns f jitter retries 0 i _ (h429 i le_rfl hilt)]
    rw [if_neg (by simp), if_neg (by omega), if_pos hlast]
    simp
  | succ m ih =>
    intro i hi h429
    have hilt : i < retries := by omega
    rw [fetchWithRetryGo_returns f jitter retries (m + 1) i _ (h429 i le_rfl hilt)]
    rw [if_neg (by simp), if_pos (by exact ⟨rfl, by omega⟩)]
    rw [ih (i + 1) (by omega) (fun j hj1 hj2 => h429 j (by omega) hj2)]
    have hdel : (List.range m).map
        (fun d => 2 ^ ((i + 1) + d) * 1000 + jitter ((i + 1) + d)) =
        (List.range m).map
          ((fun d => 2 ^ (i + d) * 1000 + jitter (i + d)) ∘ Nat.succ) := by
      refine List.map_congr_left ?_
      intro d _
      simp only [Function.comp_apply]
      rw [show (i + 1) + d = i + Nat.succ d by omega]
    rw [List.range_succ_eq_map, List.map_cons, List.map_map, ← hdel]
    simp

/-- C1: the claim as stated is false on the code.  At the concrete input where
the transport succeeds with a failing non-rate-limit status 500 on the very
first attempt (and every later one), `fetchWithRetry` with the default budget 3
does not raise after that one attempt: it makes 3 attempts (the thrown
`HTTP error! status: 500` is swallowed by the `catch` on non-final attempts)
and only then rejects with the status-500 error. -/
theorem C1_counterexample :
    fetchWithRetry const500 zeroJitter 3 = ⟨.rejected (.http 500), [], 3⟩ ∧
    (fetchWithRetry const500 zeroJitter 3).attempts ≠ 1 := by
  constructor
  · rfl
  · decide

/-- C1 (amended): when the transport succeeds but every response carries a
failing status other than 429, `fetchWithRetry` does raise an error identifying
an HTTP status — but only on the final attempt, whose status it reports, after
making all `retries` attempts with no backoff sleep; on non-final attempts the
thrown status error is swallowed by the `catch` and the call is retried
immediately. -/
theorem C1_http_error_only_final (f : Nat → TransportStep) (jitter : Nat → Nat)
    (retries : Nat) (statuses : Nat → Nat) (hr : 1 ≤ retries)
    (hf : ∀ k, k < retries → f k = .returns ⟨false, statuses k⟩)
    (hs : ∀ k, k < retries → statuses k ≠ 429) :
    fetchWithRetry f jitter retries =
      ⟨.rejected (.http (statuses (retries - 1))), [], retries⟩ := by
  obtain ⟨m, rfl⟩ : ∃ m, retries = m + 1 := ⟨retries - 1, by omega⟩
  exact fetchWithRetryGo_nonretryable f jitter (m + 1) statuses m 0 (by omega)
    (fun k _ hk => hf k hk) (fun k _ hk => hs k hk)

/-- C1 witness: the amended theorem applied to the all-500 transport with the
default retry budget. -/
theorem C1_witness :
    fetchWithRetry const500 zeroJitter 3 = ⟨.rejected (.http 500), [], 3⟩ :=
  C1_http_error_only_final const500 zeroJitter 3 (fun _ => 500) (by decide)
    (fun k _ => rfl) (fun k _ => by show (500 : Nat) ≠ 429; decide)

/-- C2: the retry policy.  First conjunct: a run of 429 responses on attempts
`0 … k-1` followed by a successful response on attempt `k < retries` makes
`fetchWithRetry` resolve with that response after `k + 1` attempts, sleeping
`2^attempt * 1000 + jitter` before each retry.  Second conjunct: `retries`
consecutive 429 responses make it reject with the status-429 error after
exactly `retries` attempts, having slept the same backoff before each of the
`retries - 1` retries. -/
theorem C2_retry_policy :
    (∀ (f : Nat → TransportStep) (jitter : Nat → Nat) (retries k : Nat) (resp : Response),
      k < retries →
      (∀ i, i < k → f i = .returns ⟨false, 429⟩) →
      f k = .returns resp → resp.ok = true →
      fetchWithRetry f jitter retries =
        ⟨.resolved resp, (List.range k).map (fun i => 2 ^ i * 1000 + jitter i), k + 1⟩) ∧
    (∀ (f : Nat → TransportStep) (jitter : Nat → Nat) (retries : Nat),
      1 ≤ retries →
      (∀ i, i < retries → f i = .returns ⟨false, 429⟩) →
      fetchWithRetry f jitter retries =
        ⟨.rejected (.http 429),
         (List.range (retries - 1)).map (fun i => 2 ^ i * 1000 + jitter i), retries⟩) := by
  constructor
  · intro f jitter retries k resp hk h429 hfk hok
    have h := fetchWithRetryGo_429_then_ok f jitter retries resp hok retries 0 k
      (by omega) (by omega) hk (fun j _ hj => h429 j hj) hfk
    rw [fetchWithRetry, h]
    simp
  · intro f jitter retries hr h429
    obtain ⟨m, rfl⟩ : ∃ m, retries = m + 1 := ⟨retries - 1, by omega⟩
    have h := fetchWithRetryGo_429_exhaust f jitter (m + 1) m 0 (by omega)
      (fun j _ hj => h429 j hj)
    rw [fetchWithRetry, h]
    simp

/-- C2 witness: both parts of the retry-policy theorem at concrete transports
with the default budget 3 and zero jitter: two 429s then a success resolves
after sleeps of 1000ms and 2000ms; three 429s reject after the same sleeps. -/
theorem C2_witness :
    fetchWithRetry fetch429twiceThenOk zeroJitter 3 =
      ⟨.resolved ⟨true, 200⟩, [1000, 2000], 3⟩ ∧
    fetchWithRetry fetch429always zeroJitter 3 =
      ⟨.rejected (.http 429), [1000, 2000], 3⟩ := by
  constructor
  · rw [C2_retry_policy.1 fetch429twiceThenOk zeroJitter 3 2 ⟨true, 200⟩ (by decide)
      (by decide) (by decide) (by decide)]
    decide
  · rw [C2_retry_policy.2 fetch429always zeroJitter 3 (by decide) (by decide)]
    decide

/-- C3: editing the hint text of a queue item whose status is `'analyzed'` or
`'error'` resets that item's status to `'pending'` and clears its summary (to
the empty string), keywords (to the empty array) and error (to the empty
string), while storing the new hint text. -/
theorem C3_edit_hint_resets (queue : List QueueItem) (id value : String) (i : Nat)
    (item : QueueItem) (hget : queue[i]? = some item) (hid : item.id = id)
    (_hst : item.status = .analyzed ∨ item.status = .error) :
    (handleInputChange queue id .mockContent value)[i]? =
      some { item with
             mockContent := value, status := .pending,
             summary := .str "", keywords := .arr [], error := "" } := by
  unfold handleInputChange
  rw [List.getElem?_map, hget, Option.map_some', if_pos hid]
  rfl

/-- C3 witness: the reset applied to a one-item queue holding an analyzed item. -/
theorem C3_witness :
    (handleInputChange [c3Item] "a" .mockContent "new steel grade")[0]? =
      some { c3Item with
             mockContent := "new steel grade", status := .pending,
             summary := .str "", keywords := .arr [], error := "" } :=
  C3_edit_hint_resets [c3Item] "a" "new steel grade" 0 c3Item rfl rfl (Or.inl rfl)

/-- C10: the frame property of the per-item queue updates.  Editing a hint,
marking an item analyzing, recording success, and recording failure each
preserve the queue's length and leave every entry whose id differs from the
targeted id exactly as it was, at its original position. -/
theorem C10_frame (queue : List QueueItem) (id : String) (field : EditField)
    (value : String) (summary keywords : Json) (msg : String) (i : Nat)
    (item : QueueItem) (hget : queue[i]? = some item) (hid : item.id ≠ id) :
    ((handleInputChange queue id field value).length = queue.length ∧
     (markAnalyzing queue id).length = queue.length ∧
     (markAnalyzed queue id summary keywords).length = queue.length ∧
     (markError queue id msg).length = queue.length) ∧
    ((handleInputChange queue id field value)[i]? = some item ∧
     (markAnalyzing queue id)[i]? = some item ∧
     (markAnalyzed queue id summary keywords)[i]? = some item ∧
     (markError queue id msg)[i]? = some item) := by
  unfold handleInputChange markAnalyzing markAnalyzed markError
  refine ⟨⟨List.length_map _ _, List.length_map _ _, List.length_map _ _,
    List.length_map _ _⟩, ?_, ?_, ?_, ?_⟩ <;>
    rw [List.getElem?_map, hget, Option.map_some', if_neg hid]

/-- C10 witness: both updates applied to a two-item queue, targeting the second
item's id; the first item is untouched by all four operations. -/
theorem C10_witness :
    ((handleInputChange [c3Item, c7Pending] "p1" .mockContent "x").length = 2 ∧
     (markAnalyzing [c3Item, c7Pending] "p1").length = 2 ∧
     (markAnalyzed [c3Item, c7Pending] "p1" (.str "s") (.arr [])).length = 2 ∧
     (markError [c3Item, c7Pending] "p1" "boom").length = 2 ∧
     (handleInputChange [c3Item, c7Pending] "p1" .mockContent "x")[0]? = some c3Item ∧
     (markAnalyzing [c3Item, c7Pending] "p1")[0]? = some c3Item ∧
     (markAnalyzed [c3Item, c7Pending] "p1" (.str "s") (.arr []))[0]? = some c3Item ∧
     (markError [c3Item, c7Pending] "p1" "boom")[0]? = some c3Item) := by
  have h := C10_frame [c3Item, c7Pending] "p1" .mockContent "x" (.str "s") (.arr [])
    "boom" 0 c3Item rfl (by intro h; exact absurd (congrArg String.length h) (by decide))
  exact ⟨h.1.1, h.1.2.1, h.1.2.2.1, h.1.2.2.2, h.2.1, h.2.2.1, h.2.2.2.1, h.2.2.2.2⟩

/-- Whatever `parsedData.keywords` is, the `Array.isArray(…) ? … : []` guard
yields an array. -/
theorem jsArrayOrEmpty_isArr (v : Option Json) : ∃ l, jsArrayOrEmpty v = .arr l := by
  match v with
  | none => exact ⟨[], rfl⟩
  | some .null => exact ⟨[], rfl⟩
  | some (.bool b) => exact ⟨[], rfl⟩
  | some (.num n) => exact ⟨[], rfl⟩
  | some (.str s) => exact ⟨[], rfl⟩
  | some (.arr elems) => exact ⟨elems, rfl⟩
  | some (.obj fields) => exact ⟨[], rfl⟩

/-- C4: the claim as stated is false on the code.  With a configured key and a
well-formed response whose extracted text is the legitimate JSON
`{"summary": true, "keywords": []}`, the call succeeds, the keywords field is
an (empty) array, but the summary field is the boolean `true` — not a string
at all, hence neither a non-empty string nor the fallback literal: the
`parsedData.summary || '요약 생성 실패'` guard passes any truthy value through
unchanged. -/
theorem C4_counterexample :
    generateSpecMetadata "key" c4Net c4Parse = .ok ⟨.bool true, .arr []⟩ ∧
    (∀ s : String, (Json.bool true) ≠ .str s) := by
  constructor
  · rfl
  · intro s h
    exact Json.noConfusion h

/-- C4 (amended): for every successful `generateSpecMetadata` call, the
returned keywords field is an array (possibly empty) — unconditionally, by the
`Array.isArray` guard; and provided every truthy `summary` field `JSON.parse`
can deliver is a string — which is what the requested response schema promises
but the code does not enforce — the returned summary is a non-empty string or
the literal fallback `'요약 생성 실패'`. -/
theorem C4_success_shape (apiKey : String) (net : Except String Json)
    (jsonParse : Json → Except String Json) (r : AnalyzeResult)
    (hok : generateSpecMetadata apiKey net jsonParse = .ok r) :
    (∃ l, r.keywords = .arr l) ∧
    ((∀ jt j, jsonParse jt = .ok j → ∀ v, jsProp j "summary" = some v →
        jsTruthy (some v) = true → ∃ s, v = .str s) →
      ((∃ s, r.summary = .str s ∧ s ≠ "") ∨ r.summary = .str FALLBACK_SUMMARY)) := by
  unfold generateSpecMetadata at hok
  split at hok
  · exact absurd hok (by simp)
  · revert hok
    split
    case h_2 msg => intro hok; exact absurd hok (by simp)
    case h_1 r' heq =>
    intro hok
    obtain rfl : r' = r := by injection hok
    unfold generateSpecMetadataTry at heq
    cases net with
    | error m => simp at heq
    | ok result =>
      simp only at heq
      cases hext : extractJsonText result with
      | error m => rw [hext] at heq; simp at heq
      | ok jsonText =>
        rw [hext] at heq
        cases jsonText with
        | none => simp at heq
        | some jt =>
          simp only at heq
          by_cases htr : jsTruthy (some jt) = true
          · rw [if_pos htr] at heq
            cases hp : jsonParse jt with
            | error m => rw [hp] at heq; simp at heq
            | ok parsedData =>
              rw [hp] at heq
              simp only at heq
              by_cases hnull : parsedData.isNull = true
              · rw [if_pos hnull] at heq; simp at heq
              · rw [if_neg hnull] at heq
                obtain rfl : AnalyzeResult.mk
                    (jsOr (jsProp parsedData "summary") (.str FALLBACK_SUMMARY))
                    (jsArrayOrEmpty (jsProp parsedData "keywords")) = r' := by
                  injection heq
                refine ⟨jsArrayOrEmpty_isArr _, ?_⟩
                intro hparse
                cases hsum : jsProp parsedData "summary" with
                | none => right; rfl
                | some v =>
                  by_cases htv : jsTruthy (some v) = true
                  · left
                    obtain ⟨s, rfl⟩ := hparse jt parsedData hp v hsum htv
                    refine ⟨s, ?_, ?_⟩
                    · simp only [jsOr, if_pos htv]
                    · simpa [jsTruthy] using htv
                  · right
                    simp only [jsOr, if_neg htv]
          · rw [if_neg htr] at heq; simp at heq

/-- C4 witness: the amended theorem at a run whose parse result is the
string-summary object `{"summary": "Forging spec", "keywords": ["forging"]}`. -/
theorem C4_witness :
    (∃ l, (⟨.str "Forging spec", .arr [.str "forging"]⟩ : AnalyzeResult).keywords = .arr l) ∧
    ((∃ s, (⟨.str "Forging spec", .arr [.str "forging"]⟩ : AnalyzeResult).summary = .str s ∧
        s ≠ "") ∨
      (⟨.str "Forging spec", .arr [.str "forging"]⟩ : AnalyzeResult).summary =
        .str FALLBACK_SUMMARY) := by
  have h := C4_success_shape "key" c4Net
    (fun _ => .ok (.obj [("summary", .str "Forging spec"),
      ("keywords", .arr [.str "forging"])]))
    ⟨.str "Forging spec", .arr [.str "forging"]⟩
    rfl
  refine ⟨h.1, h.2 ?_⟩
  intro jt j hj v hv htv
  obtain rfl : (Json.obj [("summary", .str "Forging spec"),
      ("keywords", .arr [.str "forging"])]) = j := by injection hj
  obtain rfl : Json.str "Forging spec" = v := by injection hv
  exact ⟨"Forging spec", rfl⟩

/-- C5: the claim as stated is false on the code.  With no API credential,
`generateSpecMetadata` raises the key-missing error as-is: its message is not
of the form `'AI 분석 실패: ' ++ cause`, because the credential check throws
before the `try` block whose `catch` does the wrapping.  (The two messages
start with different characters, so no suffix can make them equal.) -/
theorem C5_counterexample :
    generateSpecMetadata "" c4Net c4Parse = .error MSG_KEY_MISSING ∧
    ∀ cause, MSG_KEY_MISSING ≠ ANALYSIS_FAIL_WRAP ++ cause := by
  refine ⟨rfl, ?_⟩
  intro cause h
  have hd : MSG_KEY_MISSING.data = ANALYSIS_FAIL_WRAP.data ++ cause.data := by
    rw [h]
    exact String.data_append _ _
  have hh := congrArg List.head? hd
  have hA : (ANALYSIS_FAIL_WRAP.data ++ cause.data).head? = some 'A' := by
    have : ANALYSIS_FAIL_WRAP.data = 'A' :: "I 분석 실패: ".data := by decide
    rw [this]
    rfl
  have hG : MSG_KEY_MISSING.data.head? = some 'G' := by decide
  rw [hG, hA] at hh
  exact absurd hh (by decide)

/-- C5 (amended): the missing-credential failure is raised unwrapped, with its
own dedicated message; every other failure of `generateSpecMetadata` — raised
from inside the `try` block, which covers the fetch rejection, the
content-missing check and the JSON parse — is wrapped as
`'AI 분석 실패: ' ++ cause`.  In particular a response with falsy extracted
content yields the wrapped content-missing message and a throwing `JSON.parse`
yields its message wrapped. -/
theorem C5_wrapping (apiKey : String) (net : Except String Json)
    (jsonParse : Json → Except String Json) :
    (apiKey = "" → generateSpecMetadata apiKey net jsonParse = .error MSG_KEY_MISSING) ∧
    (apiKey ≠ "" → ∀ m, generateSpecMetadata apiKey net jsonParse = .error m →
      ∃ cause, m = ANALYSIS_FAIL_WRAP ++ cause) ∧
    (apiKey ≠ "" → ∀ result jt, net = .ok result → extractJsonText result = .ok jt →
      jsTruthy jt = false →
      generateSpecMetadata apiKey net jsonParse =
        .error (ANALYSIS_FAIL_WRAP ++ MSG_CONTENT_MISSING)) ∧
    (apiKey ≠ "" → ∀ result jt pmsg, net = .ok result →
      extractJsonText result = .ok (some jt) → jsTruthy (some jt) = true →
      jsonParse jt = .error pmsg →
      generateSpecMetadata apiKey net jsonParse =
        .error (ANALYSIS_FAIL_WRAP ++ pmsg)) := by
  refine ⟨?_, ?_, ?_, ?_⟩
  · intro hk
    unfold generateSpecMetadata
    rw [if_pos hk]
  · intro hk m hm
    unfold generateSpecMetadata at hm
    rw [if_neg hk] at hm
    revert hm
    split
    · intro hm; exact absurd hm (by simp)
    case h_2 msg heq =>
      intro hm
      obtain rfl : ANALYSIS_FAIL_WRAP ++ msg = m := by injection hm
      exact ⟨msg, rfl⟩
  · intro hk result jt hnet hext hfal
    subst hnet
    unfold generateSpecMetadata generateSpecMetadataTry
    rw [if_neg hk]
    simp only [hext]
    cases jt with
    | none => rfl
    | some j =>
      simp only
      rw [if_neg (by rw [hfal]; exact Bool.false_ne_true)]
  · intro hk result jt pmsg hnet hext htr hp
    subst hnet
    unfold generateSpecMetadata generateSpecMetadataTry
    rw [if_neg hk]
    simp only [hext]
    rw [if_pos htr, hp]

/-- C5 witness: the wrapping theorem at a concrete run — configured key, a
response whose content is missing (no candidates), so the raised message is
the wrapped content-missing message; and the unwrapped key-missing branch. -/
theorem C5_witness :
    generateSpecMetadata "" c4Net c4Parse = .error MSG_KEY_MISSING ∧
    generateSpecMetadata "key" (.ok (.obj [])) c4Parse =
      .error (ANALYSIS_FAIL_WRAP ++ MSG_CONTENT_MISSING) := by
  constructor
  · exact (C5_wrapping "" c4Net c4Parse).1 rfl
  · exact (C5_wrapping "key" (.ok (.obj [])) c4Parse).2.2.1
      (by intro h; exact absurd (congrArg String.length h) (by decide))
      (.obj []) none rfl rfl rfl

/-- The de-duplication key of a freshly built queue item is the selected
file's derived key, independent of the drawn id. -/
theorem queueKey_mkQueueItem (id : String) (f : SelectedFile) :
    queueKey (mkQueueItem id f) = selKey f := rfl

/-- The keys of the batch's freshly built items are the files' derived keys. -/
theorem map_queueKey_newSpecs (files : List SelectedFile) (ids : Nat → String) :
    (files.enum.map (fun p => mkQueueItem (ids p.1) p.2)).map queueKey =
      files.map selKey := by
  rw [List.map_map]
  have h : (queueKey ∘ fun p : Nat × SelectedFile => mkQueueItem (ids p.1) p.2) =
      (selKey ∘ Prod.snd) := by
    funext p
    rfl
  rw [h, ← List.map_map, List.enum_map_snd]

/-- `handleFileSelect` preserves distinctness of the queue's de-duplication
keys when the incoming batch's derived keys are themselves distinct. -/
theorem nodup_keys_handleFileSelect (q : List QueueItem) (files : List SelectedFile)
    (ids : Nat → String) (hq : (q.map queueKey).Nodup)
    (hnd : (files.map selKey).Nodup) :
    ((handleFileSelect q files ids).map queueKey).Nodup := by
  unfold handleFileSelect
  split
  · exact hq
  · rw [List.map_append, List.nodup_append]
    refine ⟨hq, ?_, ?_⟩
    · refine List.Nodup.sublist (List.Sublist.map queueKey (List.filter_sublist _)) ?_
      rw [map_queueKey_newSpecs]
      exact hnd
    · intro a ha hb
      obtain ⟨s, hs, rfl⟩ := List.mem_map.mp hb
      have hpred := List.of_mem_filter hs
      rw [Bool.not_eq_true'] at hpred
      exact absurd ha (by simpa using hpred)

/-- `handleRemoveItem` preserves distinctness of the queue's keys. -/
theorem nodup_keys_handleRemoveItem (q : List QueueItem) (id : String)
    (hq : (q.map queueKey).Nodup) :
    ((handleRemoveItem q id).map queueKey).Nodup :=
  List.Nodup.sublist (List.Sublist.map queueKey (List.filter_sublist _)) hq

/-- C6: the claim as stated is false on the code.  The queue obtained by one
`handleFileSelect` of a batch containing the same file twice is reachable, yet
holds two entries with the identical (filePath, fileName) pair: the uniqueness
check filters the batch only against the already-queued keys, not against the
batch itself. -/
theorem C6_counterexample :
    ReachableQueue dupQueue ∧
    dupQueue.countP
      (fun item => item.filePath == "" && item.fileName == "a.pdf") = 2 := by
  refine ⟨ReachableQueue.select [] [dupFile, dupFile] (fun n => toString n)
    ReachableQueue.empty, ?_⟩
  rfl

/-- C6 (amended): when every single selection event's batch carries
pairwise-distinct derived (filePath, fileName) keys — as a browser file dialog
delivers — every reachable queue state has pairwise-distinct de-duplication
keys, hence at most one entry per distinct (filePath, fileName) pair; and,
unconditionally, selecting a file whose key equals an already-queued entry's
key adds no further entry with that key. -/
theorem C6_dedup_invariant :
    (∀ q, ReachableQueueD q →
      (q.map queueKey).Nodup ∧
      q.Pairwise (fun a b => ¬(a.filePath = b.filePath ∧ a.fileName = b.fileName))) ∧
    (∀ (q : List QueueItem) (files : List SelectedFile) (ids : Nat → String)
       (k : String), (∃ item ∈ q, queueKey item = k) →
      (handleFileSelect q files ids).countP (fun item => queueKey item == k) =
        q.countP (fun item => queueKey item == k)) := by
  constructor
  · intro q hq
    have hnd : (q.map queueKey).Nodup := by
      induction hq with
      | empty => exact List.nodup_nil
      | select q files ids hnd _ ih => exact nodup_keys_handleFileSelect q files ids ih hnd
      | remove q id _ ih => exact nodup_keys_handleRemoveItem q id ih
    refine ⟨hnd, ?_⟩
    have hpw := (List.pairwise_map.mp hnd)
    refine hpw.imp ?_
    intro a b hne hab
    exact hne (by unfold queueKey; rw [hab.1, hab.2])
  · intro q files ids k hk
    unfold handleFileSelect
    split
    · rfl
    · rw [List.countP_append]
      have hzero : (((files.enum.map (fun p => mkQueueItem (ids p.1) p.2)).filter
          (fun s => !((q.map queueKey).contains (queueKey s)))).countP
          (fun item => queueKey item == k)) = 0 := by
        rw [List.countP_eq_zero]
        intro s hs hsk
        have hpred := List.of_mem_filter hs
        rw [Bool.not_eq_true'] at hpred
        have hmem : queueKey s ∈ q.map queueKey := by
          obtain ⟨item, him, hik⟩ := hk
          rw [show queueKey s = k from by simpa using hsk, ← hik]
          exact List.mem_map_of_mem queueKey him
        exact absurd hmem (by simpa using hpred)
      rw [hzero]
      exact Nat.add_zero _

/-- C6 witness: the amended invariant at a reachable queue built from one
well-formed two-file batch, and the no-second-entry property for re-selecting
an already-queued file. -/
theorem C6_witness :
    ((handleFileSelect [] [dupFile, singleFile] (fun n => toString n)).map
      queueKey).Nodup ∧
    (handleFileSelect [mkQueueItem "x" dupFile] [dupFile]
        (fun n => toString n)).countP (fun item => queueKey item == "a.pdf") =
      ([mkQueueItem "x" dupFile] : List QueueItem).countP
        (fun item => queueKey item == "a.pdf") := by
  constructor
  · exact (C6_dedup_invariant.1 _ (ReachableQueueD.select [] [dupFile, singleFile]
      (fun n => toString n) (by decide) ReachableQueueD.empty)).1
  · exact C6_dedup_invariant.2 [mkQueueItem "x" dupFile] [dupFile]
      (fun n => toString n) "a.pdf" ⟨mkQueueItem "x" dupFile, by simp, rfl⟩

/-- The records built by a commit are as many as the analyzed items. -/
theorem length_commit_records (now : String) (links : Nat → String)
    (items : List QueueItem) :
    ((items.enum.map (fun p => toSpecRecord now (links p.1) p.2)).length) =
      items.length := by
  rw [List.length_map, List.enum_length]

/-- C7: commit semantics.  For any commit: the persisted list equals the new
in-memory list; the previously saved records all survive, unchanged and in
order, after the new ones (most-recent-first); the new front consists of
records of exactly the analyzed items (same ids, same order), each stamped with
the commit time; the metadata commit is independent of the per-item blob-save
outcomes; and a commit with zero analyzed items is a notice-only no-op, while
with at least one analyzed item `handleSave` commits exactly the analyzed
items. -/
theorem C7_commit_semantics (now : String) (links : Nat → String)
    (queue : List QueueItem) (specs : List SpecRecord) :
    ((handleSaveAnalyzedSpecs now links queue specs).2 =
      (handleSaveAnalyzedSpecs now links queue specs).1 ∧
     (handleSaveAnalyzedSpecs now links queue specs).1.drop
       ((queue.filter (fun item => item.status == .analyzed)).length) = specs ∧
     ((handleSaveAnalyzedSpecs now links queue specs).1.take
       ((queue.filter (fun item => item.status == .analyzed)).length)).map
         SpecRecord.id =
       (queue.filter (fun item => item.status == .analyzed)).map QueueItem.id ∧
     ∀ r ∈ (handleSaveAnalyzedSpecs now links queue specs).1.take
       ((queue.filter (fun item => item.status == .analyzed)).length),
       r.createdAt = now) ∧
    (∀ blobOk1 blobOk2 : QueueItem → Bool,
      (saveWithBlobStore now links blobOk1 queue specs).1 =
      (saveWithBlobStore now links blobOk2 queue specs).1) ∧
    (queue.filter (fun item => item.status == .analyzed) = [] →
      handleSave now links queue specs = .notice) ∧
    (queue.filter (fun item => item.status == .analyzed) ≠ [] →
      handleSave now links queue specs =
        .saved (handleSaveAnalyzedSpecs now links queue specs)) := by
  have hff : (queue.filter (fun item => item.status == .analyzed)).filter
      (fun item => item.status == .analyzed) =
      queue.filter (fun item => item.status == .analyzed) := by
    rw [List.filter_filter]
    simp
  refine ⟨⟨rfl, ?_, ?_, ?_⟩, fun b1 b2 => rfl, ?_, ?_⟩
  · unfold handleSaveAnalyzedSpecs
    rw [← length_commit_records now links
      (queue.filter (fun item => item.status == .analyzed)), List.drop_left]
  · unfold handleSaveAnalyzedSpecs
    rw [← length_commit_records now links
      (queue.filter (fun item => item.status == .analyzed)), List.take_left,
      List.map_map]
    have h : (SpecRecord.id ∘ fun p : Nat × QueueItem =>
        toSpecRecord now (links p.1) p.2) = (QueueItem.id ∘ Prod.snd) := by
      funext p
      rfl
    rw [h, ← List.map_map, List.enum_map_snd]
  · unfold handleSaveAnalyzedSpecs
    rw [← length_commit_records now links
      (queue.filter (fun item => item.status == .analyzed)), List.take_left]
    intro r hr
    obtain ⟨p, hp, rfl⟩ := List.mem_map.mp hr
    rfl
  · intro h
    unfold handleSave
    rw [if_pos (by rw [h]; rfl)]
  · intro h
    unfold handleSave
    rw [if_neg (by simpa [List.isEmpty_iff] using h)]
    unfold handleSaveAnalyzedSpecs
    rw [hff]

/-- C7 witness: the commit semantics applied to a queue holding one analyzed
and one pending item over an empty catalog: both notice and commit branches of
the theorem are exercised at concrete inputs. -/
theorem C7_witness :
    handleSave "2026-01-01T00:00:00.000Z" c7Links [c7Pending] [] = .notice ∧
    handleSave "2026-01-01T00:00:00.000Z" c7Links [c3Item, c7Pending] [] =
      .saved (handleSaveAnalyzedSpecs "2026-01-01T00:00:00.000Z" c7Links
        [c3Item, c7Pending] []) := by
  constructor
  · exact (C7_commit_semantics "2026-01-01T00:00:00.000Z" c7Links
      [c7Pending] []).2.2.1 rfl
  · exact (C7_commit_semantics "2026-01-01T00:00:00.000Z" c7Links
      [c3Item, c7Pending] []).2.2.2
      (fun h => absurd (congrArg List.length h) (by decide))

/-- C8: `handleAnalyzeAll`.  (1) The selection is exactly the queue items with
a non-empty file name in `'pending'` or `'error'` status.  (2) With no
qualifying item it only notifies.  (3) Otherwise it sets the lock and launches
one analysis per selected item.  (4) In every state reachable while the batch
runs — completions arriving in any order, each with success or failure
independently — the lock is clear only once every launched analysis has
settled and the batch function has returned. -/
theorem C8_analyze_all :
    (∀ (q : List QueueItem) (item : QueueItem),
      item ∈ analyzeAllSelect q ↔
        item ∈ q ∧ item.fileName ≠ "" ∧
          (item.status = .pending ∨ item.status = .error)) ∧
    (∀ q : List QueueItem, analyzeAllSelect q = [] → handleAnalyzeAll q = .notice) ∧
    (∀ q : List QueueItem, analyzeAllSelect q ≠ [] →
      handleAnalyzeAll q = .run (batchInit q) ∧
      (batchInit q).remaining = (analyzeAllSelect q).map (fun item => item.id) ∧
      (batchInit q).isAnalyzing = true) ∧
    (∀ (q0 : List QueueItem) (s : BatchState), BatchReachable q0 s →
      s.isAnalyzing = false → s.remaining = [] ∧ s.returned = true) := by
  refine ⟨?_, ?_, ?_, ?_⟩
  · intro q item
    unfold analyzeAllSelect
    rw [List.mem_filter]
    simp [bne_iff_ne, Bool.or_eq_true, beq_iff_eq]
  · intro q h
    unfold handleAnalyzeAll
    rw [if_pos (by rw [h]; rfl)]
  · intro q h
    refine ⟨?_, rfl, rfl⟩
    unfold handleAnalyzeAll
    rw [if_neg (by simpa [List.isEmpty_iff] using h)]
  · intro q0 s hr
    induction hr with
    | init =>
      intro h
      exact absurd h (by simp [batchInit])
    | step hr hstep ih =>
      cases hstep with
      | complete id outcome hid =>
        intro h
        have hs := ih h
        rw [hs.1] at hid
        exact absurd hid (List.not_mem_nil id)
      | finish hrem h2 =>
        intro _
        exact ⟨hrem, rfl⟩

/-- C8 witness: the theorem's parts at concrete queues — an empty queue only
notifies; a queue with one pending named item starts a batch over exactly that
item; and after that item's analysis fails and `Promise.all` resumes, the
reached unlocked state indeed has no pending analysis left. -/
theorem C8_witness :
    handleAnalyzeAll ([] : List QueueItem) = .notice ∧
    handleAnalyzeAll [c7Pending] = .run (batchInit [c7Pending]) ∧
    (c8sFinal.remaining = [] ∧ c8sFinal.returned = true) := by
  refine ⟨C8_analyze_all.2.1 [] rfl, ?_, ?_⟩
  · exact (C8_analyze_all.2.2.1 [c7Pending]
      (fun h => absurd (congrArg List.length h) (by decide))).1
  · refine C8_analyze_all.2.2.2 [c7Pending] c8sFinal ?_ rfl
    refine BatchReachable.step (BatchReachable.step BatchReachable.init
      (BatchStep.complete (batchInit [c7Pending]) "p1" (.failure "boom")
        (by decide))) ?_
    exact BatchStep.finish _ (by decide) rfl

/-- C9: the catalog filter returns exactly the records matched by the spec's
description — for string-shaped records (string summary, string keywords, the
shape every committed record has): a record survives the filter iff it was in
the list and the lowercased search term is a substring of its lowercased file
name, of some lowercased keyword, or of its lowercased summary; the empty
search term keeps every record (the empty string is a substring of anything,
and the code short-circuits to the whole list). -/
theorem C9_filter_exact (specs : List SpecRecord) (term : String) (spec : SpecRecord)
    (hwf : ∀ r ∈ specs, wellFormedRecord r) :
    spec ∈ filteredSpecs specs term ↔ spec ∈ specs ∧ specSaysMatch term spec := by
  unfold filteredSpecs
  by_cases hterm : term = ""
  · subst hterm
    rw [if_pos rfl]
    constructor
    · intro hm
      refine ⟨hm, Or.inl ?_⟩
      have h0 : ("".toLower).data = ([] : List Char) := by
        rw [String.toLower, String.map_eq]
        rfl
      rw [h0]
      exact List.nil_infix
    · exact And.left
  · rw [if_neg hterm]
    rw [List.mem_filter]
    constructor
    · rintro ⟨hm, hp⟩
      refine ⟨hm, ?_⟩
      obtain ⟨⟨ssum, hsum⟩, ⟨ks, hks⟩⟩ := hwf spec hm
      rw [Bool.or_eq_true, Bool.or_eq_true] at hp
      rcases hp with (hname | hkw) | hsm
      · exact Or.inl (by simpa [jsIncludes] using hname)
      · right; left
        rw [hks] at hkw
        unfold keywordSome at hkw
        rw [List.any_eq_true] at hkw
        obtain ⟨kj, hkj, hkmatch⟩ := hkw
        obtain ⟨k, hk, rfl⟩ := List.mem_map.mp hkj
        refine ⟨ks.map .str, k, hks, List.mem_map_of_mem _ hk, ?_⟩
        simpa [jsIncludes] using hkmatch
      · right; right
        rw [hsum] at hsm
        unfold summarySome at hsm
        exact ⟨ssum, hsum, by simpa [jsIncludes] using hsm⟩
    · rintro ⟨hm, hmatch⟩
      refine ⟨hm, ?_⟩
      rw [Bool.or_eq_true, Bool.or_eq_true]
      rcases hmatch with hname | ⟨ks, k, hks, hkmem, hkinf⟩ | ⟨ssum, hsum, hsinf⟩
      · exact Or.inl (Or.inl (by simpa [jsIncludes] using hname))
      · refine Or.inl (Or.inr ?_)
        rw [hks]
        unfold keywordSome
        rw [List.any_eq_true]
        exact ⟨.str k, hkmem, by simpa [jsIncludes] using hkinf⟩
      · refine Or.inr ?_
        rw [hsum]
        unfold summarySome
        simpa [jsIncludes] using hsinf

/-- C9 witness: searching `"tolerance"` in a one-record catalog whose summary
contains `"TOLERANCE"` — the filter equivalence at that concrete input. -/
theorem C9_witness :
    c9Rec ∈ filteredSpecs [c9Rec] "tolerance" ↔
      c9Rec ∈ [c9Rec] ∧ specSaysMatch "tolerance" c9Rec :=
  C9_filter_exact [c9Rec] "tolerance" c9Rec
    (fun r hr => by
      obtain rfl : r = c9Rec := by simpa using hr
      exact ⟨⟨"Forging TOLERANCE spec", rfl⟩, ⟨["forging"], rfl⟩⟩)
